import Mathlib

/-!
Verification of the ewfgo EWF (Expert Witness Format / E01) reader.

The Go source is shallowly embedded: a segment file is a `List Nat` of
bytes, `uint32`/`uint64` values are `Nat` (with explicit `% 2 ^ 64` where
Go's wrap-around arithmetic can differ from `Nat` arithmetic), fallible
operations return `Except`/`Option`, and the mutable chunk cache is
threaded explicitly as state.  The zlib inflater (`compress/zlib`, an
external library) is abstracted as a parameter
`inflate : List Nat → Option (List Nat)`.

The repository contains two EWF implementations: the top-level `ewf.go`
(`EWFImage.Parse`, `ReadSector`, ...) and the prototype in
`internal/ewf.go` (`ReadSections`, `ParseTable`).  Both are embedded
below where claims refer to them.
-/

deriving instance DecidableEq for Except

namespace EwfGo

/-- Little-endian 32-bit read at offset `off`; out-of-range bytes read as 0
(callers that model `binary.Read` from a file check bounds before calling,
callers that model `internal`'s `ReadAt` rely on the zero-fill). -/
def u32LEAt (data : List Nat) (off : Nat) : Nat :=
  data.getD off 0 + 256 * data.getD (off + 1) 0 +
    65536 * data.getD (off + 2) 0 + 16777216 * data.getD (off + 3) 0

/-- Little-endian 64-bit read at offset `off`. -/
def u64LEAt (data : List Nat) (off : Nat) : Nat :=
  u32LEAt data off + 4294967296 * u32LEAt data (off + 4)

/-- Go's `int64(x)` reinterpretation of a `uint64` value. -/
def toInt64 (n : Nat) : Int :=
  if n < 2 ^ 63 then (n : Int) else (n : Int) - 2 ^ 64

/-- Go's `bytes.TrimRight(b, "\x00")`. -/
def trimRightZeros (l : List Nat) : List Nat :=
  (l.reverse.dropWhile (· == 0)).reverse

/-! ### Section descriptors (`ewf.go`, `Section`, 76 bytes) -/

/-- `Section` from `ewf.go`: 16-byte type name, `NextOffset` (u64 LE),
`SectionSize` (u64 LE), 40 bytes padding, Adler-32 checksum (u32 LE). -/
structure Section where
  SectionTypeDefinition : List Nat
  NextOffset : Nat
  SectionSize : Nat
  Padding : List Nat
  CheckSum : Nat
deriving Repr, DecidableEq

/-- Decode a `Section` from 76 bytes starting at `off` (layout of
`binary.Read(..., binary.LittleEndian, section)`). -/
def decodeSection (data : List Nat) (off : Nat) : Section :=
  { SectionTypeDefinition := (data.drop off).take 16
    NextOffset := u64LEAt data (off + 16)
    SectionSize := u64LEAt data (off + 24)
    Padding := (data.drop (off + 32)).take 40
    CheckSum := u32LEAt data (off + 72) }

/-- ASCII bytes of the section type names recognised by `ReadSection`. -/
def typeHeader : List Nat := [104, 101, 97, 100, 101, 114]
def typeHeader2 : List Nat := [104, 101, 97, 100, 101, 114, 50]
def typeDisk : List Nat := [100, 105, 115, 107]
def typeVolume : List Nat := [118, 111, 108, 117, 109, 101]
def typeTable : List Nat := [116, 97, 98, 108, 101]
def typeTable2 : List Nat := [116, 97, 98, 108, 101, 50]
def typeSectors : List Nat := [115, 101, 99, 116, 111, 114, 115]
def typeNext : List Nat := [110, 101, 120, 116]
def typeData : List Nat := [100, 97, 116, 97]
def typeError2 : List Nat := [101, 114, 114, 111, 114, 50]
def typeDigest : List Nat := [100, 105, 103, 101, 115, 116]
def typeHash : List Nat := [104, 97, 115, 104]
def typeDone : List Nat := [100, 111, 110, 101]

/-- The `switch sectionType` whitelist in `EWFImage.ReadSection`. -/
def isKnownSectionType (t : List Nat) : Bool :=
  t == typeHeader || t == typeHeader2 || t == typeDisk || t == typeVolume ||
  t == typeTable || t == typeTable2 || t == typeSectors || t == typeNext ||
  t == typeData || t == typeError2 || t == typeDigest || t == typeHash ||
  t == typeDone

/-! ### Core data model (`ewf.go`) -/

/-- `TableEntry` from `ewf.go`: a 16-byte record (u64 offset, u32 size,
u32 flags) as read by the top-level `ParseTable`. -/
structure TableEntry where
  ChunkOffset : Nat
  ChunkSize : Nat
  ChunkFlags : Nat
deriving Repr, DecidableEq

/-- `TableSection` from `ewf.go` (`Padding`/`CheckSum` carried verbatim). -/
structure TableSection where
  EntryNumber : Nat
  Entries : List TableEntry
deriving Repr, DecidableEq

/-- `DiskSMART` from `ewf.go`; fixed byte arrays are `List Nat`. -/
structure DiskSMART where
  MediaType : Nat
  Space : List Nat
  ChunkCount : Nat
  ChunkSectors : Nat
  SectorBytes : Nat
  SectorsCount : Nat
  CHScylinders : Nat
  CHSheads : Nat
  CHSsectors : Nat
  MediaFlag : Nat
  Space2 : List Nat
  PALMVolumeStartSector : Nat
  Space3 : Nat
  SMARTLogsStartSector : Nat
  CompressionLevel : Nat
  Space4 : List Nat
  SectorErrorGranularity : Nat
  Space5 : Nat
  SegmentFileSetIdentifier : List Nat
  Space6 : List Nat
  Signature : List Nat
  CheckSum : Nat
  Size : Nat
  SectorSize : Nat
deriving Repr, DecidableEq

/-- `EWFImage` from `ewf.go`, restricted to the state the read path uses:
the open segment file (byte source; `Stat` size is its length), the parsed
metadata, and the chunk cache.  Go's `map[uint64][]byte` is modelled as an
insertion-ordered association list. -/
structure EWFImage where
  file : List Nat
  DiskInfo : Option DiskSMART
  Tables : List TableSection
  Tables2 : List TableSection
  chunkCache : List (Nat × List Nat)
deriving Repr, DecidableEq

/-- `MaxCacheSize` from `ewf.go`. -/
def MaxCacheSize : Nat := 1024

/-- `ChunkIsCompressed` flag bit from `ewf.go`. -/
def ChunkIsCompressed : Nat := 1

/-- Error taxonomy of the read path, one constructor per `fmt.Errorf` site. -/
inductive EWFError where
  /-- "未解析磁盘信息" in `ReadSector`/`ReadBytes`. -/
  | noDiskInfo
  /-- "找不到有效的块 %d" at the end of `findAndReadChunk`. -/
  | chunkNotFound (chunkNumber : Nat)
  /-- "块 %d 超出文件范围" in `findAndReadChunk`. -/
  | chunkOutOfFile (chunkNumber : Nat)
  /-- `io.ReadFull` failure in `GetChunk`. -/
  | readFull
  /-- zlib failure in `decompressChunk`. -/
  | decompress
  /-- "读取块 %d 失败: %w" wrapping in `findAndReadChunk`/`ReadSector`. -/
  | readChunk (chunkNumber : Nat) (inner : EWFError)
  /-- "数据块中没有足够的数据" in `extractSectorFromChunk`. -/
  | extract (needed chunkLen : Nat)
  /-- "从块 %d 提取扇区 %d 失败: %w" wrapping in `ReadSector`. -/
  | extractWrap (chunkNumber sectorInChunk : Nat) (inner : EWFError)
  /-- "读取扇区 %d 失败: %w" wrapping in `ReadSectors`. -/
  | readSectorWrap (sectorNumber : Nat) (inner : EWFError)
deriving Repr, DecidableEq

/-- `isValidTableEntry` from `ewf.go`, checks in source order. -/
def isValidTableEntry (entry : TableEntry) (fileSize : Nat) : Bool :=
  if entry.ChunkOffset == 0 then false
  else if entry.ChunkSize == 0 || entry.ChunkSize > 1024 * 1024 * 1024 then false
  else if entry.ChunkOffset ≥ fileSize then false
  else if entry.ChunkOffset + entry.ChunkSize > fileSize then false
  else true

/-! ### Chunk cache (`findAndReadChunk` lookup, `addToCache`) -/

/-- Lookup in the modelled `chunkCache` map. -/
def lookupCache (cache : List (Nat × List Nat)) (k : Nat) : Option (List Nat) :=
  (cache.find? (fun p => p.1 == k)).map (·.2)

/-- Go map assignment `m[k] = v`: replace in place if present, else append. -/
def cacheInsert (cache : List (Nat × List Nat)) (k : Nat) (v : List Nat) :
    List (Nat × List Nat) :=
  if cache.any (fun p => p.1 == k) then
    cache.map (fun p => if p.1 == k then (k, v) else p)
  else cache ++ [(k, v)]

/-- `addToCache` from `ewf.go`: when the cache is full, Go deletes the first
key produced by `for k := range e.chunkCache` — an unspecified map entry
chosen without consulting any recency data.  The model resolves Go's
unspecified iteration order to the oldest-inserted entry (list head); no
choice of order could depend on accesses, since cache hits never mutate
the map. -/
def addToCache (e : EWFImage) (chunkNumber : Nat) (chunkData : List Nat) :
    EWFImage :=
  let cache :=
    if MaxCacheSize ≤ e.chunkCache.length then e.chunkCache.drop 1
    else e.chunkCache
  { e with chunkCache := cacheInsert cache chunkNumber chunkData }

/-! ### Chunk reading (`GetChunk`, `findAndReadChunk`) -/

/-- `GetChunk` from `ewf.go`: seek to `ChunkOffset`, `io.ReadFull` of
`ChunkSize` bytes, zlib-inflate when the compressed flag is set. -/
def GetChunk (inflate : List Nat → Option (List Nat)) (file : List Nat)
    (entry : TableEntry) : Except EWFError (List Nat) :=
  if file.length < entry.ChunkOffset + entry.ChunkSize then .error .readFull
  else
    let chunkData := (file.drop entry.ChunkOffset).take entry.ChunkSize
    if entry.ChunkFlags &&& ChunkIsCompressed ≠ 0 then
      match inflate chunkData with
      | none => .error .decompress
      | some d => .ok d
    else .ok chunkData

/-- Inner table walk of `findAndReadChunk`: within each table the loop index
`j` restarts at 0, so `j == chunkNumber` selects `Entries[chunkNumber]`;
an invalid entry makes the inner loop `continue` past its only match, i.e.
fall through to the next table. -/
def findChunkInTables (inflate : List Nat → Option (List Nat)) (e : EWFImage)
    (fileSize : Nat) (chunkNumber : Nat) :
    List TableSection → Option (Except EWFError (List Nat) × EWFImage)
  | [] => none
  | t :: rest =>
    match t.Entries.get? chunkNumber with
    | some entry =>
      if isValidTableEntry entry fileSize then
        -- offsets already bounded by `isValidTableEntry`, so no wrap here
        if entry.ChunkOffset + entry.ChunkSize > fileSize then
          some (.error (.chunkOutOfFile chunkNumber), e)
        else
          match GetChunk inflate e.file entry with
          | .error err => some (.error (.readChunk chunkNumber err), e)
          | .ok data => some (.ok data, addToCache e chunkNumber data)
      else findChunkInTables inflate e fileSize chunkNumber rest
    | none => findChunkInTables inflate e fileSize chunkNumber rest

/-- `findAndReadChunk` from `ewf.go`: cache lookup, then `Tables`, then
`Tables2`, else the "找不到有效的块" error. -/
def FindAndReadChunk (inflate : List Nat → Option (List Nat)) (e : EWFImage)
    (chunkNumber : Nat) : Except EWFError (List Nat) × EWFImage :=
  let fileSize := e.file.length
  match lookupCache e.chunkCache chunkNumber with
  | some cached => (.ok cached, e)
  | none =>
    match findChunkInTables inflate e fileSize chunkNumber e.Tables with
    | some r => r
    | none =>
      match findChunkInTables inflate e fileSize chunkNumber e.Tables2 with
      | some r => r
      | none => (.error (.chunkNotFound chunkNumber), e)

/-! ### Sector reading (`extractSectorFromChunk`, `ReadSector`,
`ReadSectors`, `ReadBytes`, getters) -/

/-- `extractSectorFromChunk` from `ewf.go` (`sectorSizeVal` is
`e.DiskInfo.SectorBytes`; both factors fit in 32 bits so the Go `uint64`
product cannot wrap). -/
def ExtractSectorFromChunk (sectorSizeVal : Nat) (chunkData : List Nat)
    (sectorInChunk : Nat) : Option (List Nat) :=
  let sectorOffset := sectorInChunk * sectorSizeVal
  if chunkData.length < sectorOffset + sectorSizeVal then none
  else some ((chunkData.drop sectorOffset).take sectorSizeVal)

/-- `ReadSector` from `ewf.go`. -/
def ReadSector (inflate : List Nat → Option (List Nat)) (e : EWFImage)
    (sectorNumber : Nat) : Except EWFError (List Nat) × EWFImage :=
  match e.DiskInfo with
  | none => (.error .noDiskInfo, e)
  | some disk =>
    let chunkNumber := sectorNumber / disk.ChunkSectors
    let sectorInChunk := sectorNumber % disk.ChunkSectors
    match FindAndReadChunk inflate e chunkNumber with
    | (.error err, e') => (.error (.readChunk chunkNumber err), e')
    | (.ok chunkData, e') =>
      match ExtractSectorFromChunk disk.SectorBytes chunkData sectorInChunk with
      | none =>
        (.error (.extractWrap chunkNumber sectorInChunk
          (.extract (sectorInChunk * disk.SectorBytes + disk.SectorBytes)
            chunkData.length)), e')
      | some sectorData => (.ok sectorData, e')

/-- Loop body of `ReadSectors`; a failure at sector `s` returns the partial
concatenation `acc` together with the wrapped error, as the Go function
returns `result, fmt.Errorf(...)`. -/
def ReadSectorsAux (inflate : List Nat → Option (List Nat)) :
    EWFImage → Nat → Nat → List Nat →
    (List Nat × Option EWFError) × EWFImage
  | e, _, 0, acc => ((acc, none), e)
  | e, s, count + 1, acc =>
    match ReadSector inflate e s with
    | (.error err, e') => ((acc, some (.readSectorWrap s err)), e')
    | (.ok sectorData, e') =>
      ReadSectorsAux inflate e' (s + 1) count (acc ++ sectorData)

/-- `ReadSectors` from `ewf.go`. -/
def ReadSectors (inflate : List Nat → Option (List Nat)) (e : EWFImage)
    (startSector count : Nat) : (List Nat × Option EWFError) × EWFImage :=
  ReadSectorsAux inflate e startSector count []

/-- `ReadBytes` from `ewf.go`; `offset + size - 1` and the derived counts
are Go `uint64` expressions, written with explicit `% 2 ^ 64` wrap. -/
def ReadBytes (inflate : List Nat → Option (List Nat)) (e : EWFImage)
    (offset size : Nat) : Except EWFError (List Nat) × EWFImage :=
  match e.DiskInfo with
  | none => (.error .noDiskInfo, e)
  | some disk =>
    let sectorSizeVal := disk.SectorBytes
    let startSector := offset / sectorSizeVal
    let endSector := (offset + size + (2 ^ 64 - 1)) % 2 ^ 64 / sectorSizeVal
    let sectorCount := (endSector + (2 ^ 64 - startSector) + 1) % 2 ^ 64
    match ReadSectors inflate e startSector sectorCount with
    | ((_, some err), e') => (.error err, e')
    | ((allSectorsData, none), e') =>
      let startOffset := offset % sectorSizeVal
      let endOffset0 := (startOffset + size) % 2 ^ 64
      let endOffset :=
        if allSectorsData.length < endOffset0 then allSectorsData.length
        else endOffset0
      (.ok ((allSectorsData.drop startOffset).take (endOffset - startOffset)), e')

/-- `GetSectorSize` from `ewf.go`. -/
def GetSectorSize (e : EWFImage) : Nat :=
  match e.DiskInfo with
  | none => 0
  | some disk => disk.SectorBytes

/-- `GetSectorCount` from `ewf.go`. -/
def GetSectorCount (e : EWFImage) : Nat :=
  match e.DiskInfo with
  | none => 0
  | some disk => disk.SectorsCount

/-- `GetChunkSize` from `ewf.go`. -/
def GetChunkSize (e : EWFImage) : Nat :=
  match e.DiskInfo with
  | none => 0
  | some disk => disk.ChunkSectors

/-! ### Section scanner of `EWFImage.Parse` / `ReadSection` (`ewf.go`) -/

/-- `ReadSection` from `ewf.go`: validate the offset, `binary.Read` a
76-byte descriptor, validate size, next-offset and type. -/
def ReadSection (file : List Nat) (offset : Nat) : Except Unit Section :=
  let fileSize := file.length
  if offset ≥ fileSize then .error ()
  else if fileSize < offset + 76 then .error ()  -- binary.Read hits EOF
  else
    let s := decodeSection file offset
    if s.SectionSize == 0 || s.SectionSize > fileSize then .error ()
    else if s.NextOffset > fileSize then .error ()
    else if !isKnownSectionType (trimRightZeros s.SectionTypeDefinition) then
      .error ()
    else .ok s

/-- Scanning loop of `EWFImage.Parse` (lines 739-800 of `ewf.go`), with an
explicit fuel so that termination is a provable statement.  The body
parsers dispatched in the `switch` (`ParseHeaderSection`, `ParseVolume`,
`ParseTable`, `ParseTable2`) only fill in image state: their errors are
ignored (`if err == nil`) and they never alter the control flow, so the
scan models the loop's control state — current section, `processedOffsets`
(a list), `lastOffset` and the accumulated section list.  Result `none`
means the fuel ran out; `some (.error ())` models `Parse` returning a
section-read error; `some (.ok sections)` models leaving the loop. -/
def ParseScan (file : List Nat) :
    Nat → Section → List Nat → Nat → List Section →
    Option (Except Unit (List Section))
  | fuel, sec, processed, lastOffset, acc =>
    if processed.contains sec.NextOffset then some (.ok acc)
    else if sec.NextOffset ≤ lastOffset then some (.ok acc)
    else if file.length ≤ sec.NextOffset then some (.ok acc)
    else
      match ReadSection file sec.NextOffset with
      | .error _ => some (.error ())
      | .ok s =>
        match fuel with
        | 0 => none
        | fuel + 1 =>
          if trimRightZeros s.SectionTypeDefinition == typeDone ||
              s.NextOffset == 0 then
            some (.ok (acc ++ [s]))
          else
            ParseScan file fuel s (sec.NextOffset :: processed)
              sec.NextOffset (acc ++ [s])

/-- Section scanning of `EWFImage.Parse`: the initial section is read at
offset 13, then the loop runs with `processedOffsets = {13}` and
`lastOffset = 13`, given fuel `file.length + 1`. -/
def ParseScanRun (file : List Nat) : Option (Except Unit (List Section)) :=
  match ReadSection file 13 with
  | .error _ => some (.error ())
  | .ok s0 => ParseScan file (file.length + 1) s0 [13] 13 [s0]

/-! ### The `internal/ewf.go` scanner (`ReadAt`, `ReadSection`,
`ReadSections`) -/

/-- `ReadAt` from `internal/ewf.go`: `file.ReadAt`'s error is ignored, so
bytes beyond EOF stay zero in the freshly made buffer. -/
def internalReadAt (file : List Nat) (addr length : Nat) : List Nat :=
  (List.range length).map (fun i => file.getD (addr + i) 0)

/-- `ReadSection` from `internal/ewf.go`: decode 76 zero-filled bytes; no
validation is performed and no error is possible. -/
def internalReadSection (file : List Nat) (address : Nat) : Section :=
  decodeSection (internalReadAt file address 76) 0

/-- `ReadSections` loop from `internal/ewf.go`, with fuel: append the
section read at `address`, move to `NextOffset`, stop only on type `done`
or `NextOffset == 0`.  There is no visited set and no monotonicity check.
`none` means the loop was still running when the fuel ran out. -/
def internalReadSections (file : List Nat) :
    Nat → Nat → List (Nat × Section) → Option (List (Nat × Section))
  | 0, _, _ => none
  | fuel + 1, address, acc =>
    let s := internalReadSection file address
    let acc := acc ++ [(address, s)]
    if trimRightZeros s.SectionTypeDefinition == typeDone then some acc
    else if s.NextOffset == 0 then some acc
    else internalReadSections file fuel s.NextOffset acc

/-- `internal/ewf.go`'s `ReadSections` terminates on a given segment file
iff some finite fuel suffices for the loop (started at
`EWFFileHeaderLength = 13` as in the source) to finish. -/
def internalScanTerminates (file : List Nat) : Prop :=
  ∃ fuel, (internalReadSections file fuel 13 []).isSome

/-! ### Volume parsing (`EWFImage.ParseVolume`, `ewf.go`) -/

/-- Field-by-field decode of the full `DiskSMART` struct as laid out by
`binary.Read` (1064 bytes: the 1052-byte on-disk record plus the in-memory
`Size`/`SectorSize` fields the Go struct appends). -/
def decodeDiskSMARTFull (data : List Nat) : DiskSMART :=
  { MediaType := data.getD 0 0
    Space := (data.drop 1).take 3
    ChunkCount := u32LEAt data 4
    ChunkSectors := u32LEAt data 8
    SectorBytes := u32LEAt data 12
    SectorsCount := u64LEAt data 16
    CHScylinders := u32LEAt data 24
    CHSheads := u32LEAt data 28
    CHSsectors := u32LEAt data 32
    MediaFlag := data.getD 36 0
    Space2 := (data.drop 37).take 3
    PALMVolumeStartSector := u32LEAt data 40
    Space3 := u32LEAt data 44
    SMARTLogsStartSector := u32LEAt data 48
    CompressionLevel := data.getD 52 0
    Space4 := (data.drop 53).take 3
    SectorErrorGranularity := u32LEAt data 56
    Space5 := u32LEAt data 60
    SegmentFileSetIdentifier := (data.drop 64).take 16
    Space6 := (data.drop 80).take 963
    Signature := (data.drop 1043).take 5
    CheckSum := u32LEAt data 1048
    Size := u64LEAt data 1052
    SectorSize := u32LEAt data 1060 }

/-- Fallback field-by-field decode in `ParseVolume` when the full
`binary.Read` fails: only the fields up to `SectorsCount` are read (24
bytes), `Size` is computed as `SectorsCount * SectorBytes` (`uint64`
multiplication) and the remaining fields stay zero. -/
def decodeDiskSMARTPartial (data : List Nat) : DiskSMART :=
  { MediaType := data.getD 0 0
    Space := (data.drop 1).take 3
    ChunkCount := u32LEAt data 4
    ChunkSectors := u32LEAt data 8
    SectorBytes := u32LEAt data 12
    SectorsCount := u64LEAt data 16
    CHScylinders := 0
    CHSheads := 0
    CHSsectors := 0
    MediaFlag := 0
    Space2 := []
    PALMVolumeStartSector := 0
    Space3 := 0
    SMARTLogsStartSector := 0
    CompressionLevel := 0
    Space4 := []
    SectorErrorGranularity := 0
    Space5 := 0
    SegmentFileSetIdentifier := []
    Space6 := []
    Signature := []
    CheckSum := 0
    Size := u64LEAt data 16 * u32LEAt data 12 % 2 ^ 64
    SectorSize := 0 }

/-- Validation/repair block at the end of `ParseVolume` (`ewf.go` lines
2272-2298): out-of-range `SectorBytes`/`ChunkSectors` are replaced by the
defaults 512/64, then a zero `SectorsCount` or `Size` is recomputed from
the other two when possible.  The non-standard-signature check only prints
a warning and is omitted. -/
def normalizeDisk (d0 : DiskSMART) : DiskSMART :=
  let d1 :=
    if d0.SectorBytes = 0 ∨ d0.SectorBytes > 8192 then
      { d0 with SectorBytes := 512 }
    else d0
  let d2 :=
    if d1.ChunkSectors = 0 ∨ d1.ChunkSectors > 65536 then
      { d1 with ChunkSectors := 64 }
    else d1
  let d3 :=
    if d2.SectorsCount = 0 then
      if d2.Size > 0 ∧ d2.SectorBytes > 0 then
        { d2 with SectorsCount := d2.Size / d2.SectorBytes }
      else d2
    else d2
  if d3.Size = 0 then
    { d3 with Size := d3.SectorsCount * d3.SectorBytes % 2 ^ 64 }
  else d3

/-- `ParseVolume` from `ewf.go`.  `body` is the file contents from the
current position (just past the 76-byte descriptor); `sectionSize` is the
section's declared size.  The function first `io.ReadFull`s `sectionSize`
bytes (failing on a short file), then `binary.Read`s the full 1064-byte
struct, falling back to the partial field-by-field decode (which needs 24
bytes) when the file is shorter, and finally repairs the values. -/
def ParseVolume (body : List Nat) (sectionSize : Nat) :
    Except Unit DiskSMART :=
  if body.length < sectionSize then .error ()
  else if 1064 ≤ body.length then .ok (normalizeDisk (decodeDiskSMARTFull body))
  else if 24 ≤ body.length then .ok (normalizeDisk (decodeDiskSMARTPartial body))
  else .error ()

/-! ### Table parsing: top-level `EWFImage.ParseTable` (`ewf.go`) -/

/-- One 16-byte table entry as read by the top-level `ParseTable`:
`ChunkOffset` u64 LE, `ChunkSize` u32 LE, `ChunkFlags` u32 LE. -/
def decodeTableEntryAt (data : List Nat) (pos : Nat) : TableEntry :=
  { ChunkOffset := u64LEAt data pos
    ChunkSize := u32LEAt data (pos + 8)
    ChunkFlags := u32LEAt data (pos + 12) }

/-- `ParseTable` from `ewf.go`.  `currentPos` is the file offset of the
section body; reads seek to `currentPos + 24 + 16*i` for entry `i`.
When `EntryNumber` exceeds what the section can hold, the body is tried as
a zlib stream (magic `0x78 {0x01,0x9C,0xDA}`); failing that, the fallback
reads as many 16-byte entries as fit.  Parsed entries failing
`isValidTableEntry` are silently dropped. -/
def ParseTable (inflate : List Nat → Option (List Nat)) (file : List Nat)
    (currentPos sectionSize : Nat) : Except Unit TableSection :=
  let fileSize := file.length
  if sectionSize < 24 then .error ()
  else if fileSize < currentPos + 4 then .error ()
  else
    let entryNumber := u32LEAt file currentPos
    let maxEntries := (sectionSize - 24) / 16
    if entryNumber > maxEntries then
      if fileSize < currentPos + sectionSize then .error ()
      else
        let sectionData := (file.drop currentPos).take sectionSize
        match
          (if 4 < sectionData.length ∧ sectionData.getD 0 0 == 120 ∧
              (sectionData.getD 1 0 == 1 ∨ sectionData.getD 1 0 == 156 ∨
                sectionData.getD 1 0 == 218)
           then inflate sectionData else none) with
        | some dd =>
          if dd.length < 24 then .error ()
          else if dd.length < 24 + 16 * u32LEAt dd 0 then .error ()
          else
            .ok { EntryNumber := u32LEAt dd 0
                  Entries :=
                    ((List.range (u32LEAt dd 0)).map
                        (fun i => decodeTableEntryAt dd (24 + 16 * i))).filter
                      (fun en => isValidTableEntry en fileSize) }
        | none =>
          if fileSize < currentPos + 24 + 16 * maxEntries then .error ()
          else
            .ok { EntryNumber := entryNumber
                  Entries :=
                    ((List.range maxEntries).map
                        (fun i =>
                          decodeTableEntryAt file (currentPos + 24 + 16 * i))).filter
                      (fun en => isValidTableEntry en fileSize) }
    else
      if fileSize < currentPos + 24 then .error ()
      else if fileSize < currentPos + 24 + 16 * entryNumber then .error ()
      else
        .ok { EntryNumber := entryNumber
              Entries :=
                ((List.range entryNumber).map
                    (fun i =>
                      decodeTableEntryAt file (currentPos + 24 + 16 * i))).filter
                  (fun en => isValidTableEntry en fileSize) }

/-! ### Table parsing: `internal/ewf.go`'s `ParseTable` -/

/-- `ParseTable` from `internal/ewf.go`: read the 24-byte table header
(whose `EntryNumber` is only printed), then
`((sectionSize - 76 - 24) / 4) - 1` 32-bit little-endian words from the
zero-filled buffer at `address + 100`, and mask each with `0x7FFFFFFF`
in place — bit 31 is discarded, no sizes are computed.  The Go arithmetic
is `int64`; the model covers `sectionSize ≥ 104`, below which Go's
`make([]uint32, negative)` would panic. -/
def internalParseTable (file : List Nat) (address sectionSize : Nat) :
    List Nat :=
  let n := (sectionSize - 100) / 4 - 1
  let buf := internalReadAt file (address + 100) (sectionSize - 100)
  (List.range n).map (fun k => u32LEAt buf (4 * k) &&& 0x7FFFFFFF)

/-! ### Claim-side table-entry semantics (spec refinement comparison) -/

/-- Chunk-index entry as described by the specification. -/
structure SpecChunkEntry where
  compressed : Bool
  offset : Nat
  storedSize : Nat
deriving Repr, DecidableEq

/-- Modelled from the spec (claim C4 wording, spec §3 "Table entry" and
§4.D): each table entry is a single 32-bit little-endian word after the
24-byte table header; bit 31 is the compressed flag, bits 0-30 the byte
offset; the stored size of entry `i` is entry `i+1`'s offset minus entry
`i`'s offset, the last entry using the end of the `sectors` section. -/
def spec_parseTableEntries (tableBody : List Nat) (entryCount sectorsEnd : Nat) :
    List SpecChunkEntry :=
  (List.range entryCount).map (fun i =>
    let w := u32LEAt tableBody (24 + 4 * i)
    let off := w % 2 ^ 31
    { compressed := decide (2 ^ 31 ≤ w)
      offset := off
      storedSize :=
        if i + 1 < entryCount then
          u32LEAt tableBody (24 + 4 * (i + 1)) % 2 ^ 31 - off
        else sectorsEnd - off })

/-! ### NTFS timestamps (`parseNTFSTime`, `ewf.go`) -/

/-- `parseNTFSTime` from `ewf.go`.  `time.Time` is modelled as
`Option Int`: `none` is Go's zero `time.Time{}` (the null time) and
`some s` is `time.Unix(s, 0).UTC()`.  The subtraction is Go `uint64`
arithmetic followed by the `int64` cast, written with explicit wrap. -/
def parseNTFSTime (data : List Nat) : Option Int :=
  if data.length < 8 then none
  else
    let ntfsTime := u64LEAt data 0
    if ntfsTime = 0 then none
    else
      some (toInt64 ((ntfsTime / 10000000 + (2 ^ 64 - 11644473600)) % 2 ^ 64))

/-! ### Concrete fixtures used by witnesses and counterexamples -/

/-- Inflater that always fails; the fixtures below only use uncompressed
chunks (`ChunkFlags = 0`), so it is never consulted. -/
def noInflate : List Nat → Option (List Nat) := fun _ => none

/-- Build a `DiskSMART` with the given geometry and all other fields zero. -/
def mkDisk (chunkSectors sectorBytes sectorsCount : Nat) : DiskSMART :=
  { MediaType := 0, Space := [], ChunkCount := 0, ChunkSectors := chunkSectors,
    SectorBytes := sectorBytes, SectorsCount := sectorsCount,
    CHScylinders := 0, CHSheads := 0, CHSsectors := 0, MediaFlag := 0,
    Space2 := [], PALMVolumeStartSector := 0, Space3 := 0,
    SMARTLogsStartSector := 0, CompressionLevel := 0, Space4 := [],
    SectorErrorGranularity := 0, Space5 := 0, SegmentFileSetIdentifier := [],
    Space6 := [], Signature := [], CheckSum := 0, Size := 0, SectorSize := 0 }

/-- Image with no parsed disk information. -/
def emptyImage : EWFImage :=
  { file := [], DiskInfo := none, Tables := [], Tables2 := [], chunkCache := [] }

/-- Parsed image: 20-byte segment file (byte `i` has value `i`), 4-byte
sectors, 2 sectors per chunk, total sector count 1, and a single valid
uncompressed chunk of 8 bytes at file offset 10. -/
def imgTwoSectorChunk : EWFImage :=
  { file := List.range 20
    DiskInfo := some (mkDisk 2 4 1)
    Tables := [{ EntryNumber := 1, Entries := [⟨10, 8, 0⟩] }]
    Tables2 := []
    chunkCache := [] }

/-- Parsed image: 4-byte sectors, 1 sector per chunk, sector count 2, but
only chunk 0 present in the chunk index. -/
def imgOneChunk : EWFImage :=
  { file := List.range 20
    DiskInfo := some (mkDisk 1 4 2)
    Tables := [{ EntryNumber := 1, Entries := [⟨10, 4, 0⟩] }]
    Tables2 := []
    chunkCache := [] }

/-- `imgOneChunk` after a successful read of sector 0 cached chunk 0. -/
def imgOneChunkCached : EWFImage :=
  { imgOneChunk with chunkCache := [(0, [10, 11, 12, 13])] }

/-- A chunk cache at full capacity: keys 0..1023 inserted in that order
(all with empty data). -/
def cacheAtCapacity : List (Nat × List Nat) :=
  (List.range 1024).map (fun k => (k, []))

/-- Image whose cache is at full capacity. -/
def imgCacheFull : EWFImage :=
  { file := [], DiskInfo := none, Tables := [], Tables2 := [],
    chunkCache := cacheAtCapacity }

/-- A 1064-byte volume body whose raw fields are `ChunkSectors = 3`,
`SectorBytes = 513`, `SectorsCount = 1` and everything else zero. -/
def volBody513 : List Nat :=
  List.replicate 8 0 ++ [3, 0, 0, 0] ++ [1, 2, 0, 0] ++ [1] ++
    List.replicate 1047 0

/-- A table section body (placed at file offset 0): `EntryNumber = 1`,
16-byte padding, checksum, then one 16-byte entry
`{ChunkOffset = 100, ChunkSize = 7, ChunkFlags = 0}`, inside a 150-byte
file so that the entry passes `isValidTableEntry`. -/
def tblFile : List Nat :=
  [1, 0, 0, 0] ++ List.replicate 16 0 ++ [0, 0, 0, 0] ++
    ([100, 0, 0, 0, 0, 0, 0, 0] ++ [7, 0, 0, 0] ++ [0, 0, 0, 0]) ++
    List.replicate 110 0

/-- An 89-byte segment file whose single section (at offset 13, type
`next`) has `NextOffset = 13`, i.e. links back to itself. -/
def loopFile : List Nat :=
  List.replicate 13 0 ++ ([110, 101, 120, 116] ++ List.replicate 12 0) ++
    [13] ++ List.replicate 7 0 ++ List.replicate 52 0

/-- The result of `i` consecutive successful `ReadSector` calls starting at
sector `s`: the concatenated bytes and the image state after them, `none`
if any of the `i` reads fails.  Used to state the partial-result behaviour
of `ReadSectors`. -/
def ReadSectorSeq (inflate : List Nat → Option (List Nat)) :
    EWFImage → Nat → Nat → Option (List Nat × EWFImage)
  | e, _, 0 => some ([], e)
  | e, s, i + 1 =>
    match ReadSector inflate e s with
    | (.ok d, e') =>
      (ReadSectorSeq inflate e' (s + 1) i).map (fun p => (d ++ p.1, p.2))
    | (.error _, _) => none

/-! ## Helper lemmas -/

/-- A successfully extracted sector has exactly `sectorSizeVal` bytes. -/
theorem extract_sector_length (ss : Nat) (cd sd : List Nat) (k : Nat)
    (h : ExtractSectorFromChunk ss cd k = some sd) : sd.length = ss := by
  unfold ExtractSectorFromChunk at h
  dsimp only at h
  split at h
  · exact absurd h (by simp)
  · next hle =>
    injection h with h
    rw [← h, List.length_take, List.length_drop]
    omega

/-- A successful `ReadSector` returns exactly `SectorBytes` bytes. -/
theorem readSector_ok_length (inflate : List Nat → Option (List Nat))
    (e : EWFImage) (disk : DiskSMART) (i : Nat) (b : List Nat)
    (hdisk : e.DiskInfo = some disk)
    (hok : (ReadSector inflate e i).1 = .ok b) :
    b.length = disk.SectorBytes := by
  unfold ReadSector at hok
  rw [hdisk] at hok
  dsimp only at hok
  rcases hfc : FindAndReadChunk inflate e (i / disk.ChunkSectors) with ⟨v, e'⟩
  rw [hfc] at hok
  cases v with
  | error err => exact absurd hok (by simp)
  | ok cd =>
    dsimp only at hok
    cases hex : ExtractSectorFromChunk disk.SectorBytes cd (i % disk.ChunkSectors) with
    | none => rw [hex] at hok; exact absurd hok (by simp)
    | some sd =>
      rw [hex] at hok
      dsimp only at hok
      injection hok with hok
      rw [← hok]
      exact extract_sector_length _ _ _ _ hex

/-- The table walk of `findAndReadChunk` finds nothing when every table is
too short to have an entry at index `n`. -/
theorem findChunkInTables_none (inflate : List Nat → Option (List Nat))
    (e : EWFImage) (fs n : Nat) :
    ∀ ts : List TableSection, (∀ t ∈ ts, t.Entries.length ≤ n) →
      findChunkInTables inflate e fs n ts = none := by
  intro ts
  induction ts with
  | nil => intro _; rfl
  | cons t rest ih =>
    intro h
    rw [findChunkInTables]
    have hnone : t.Entries.get? n = none :=
      List.get?_eq_none.2 (h t (List.mem_cons_self t rest))
    rw [hnone]
    exact ih (fun t' ht' => h t' (List.mem_cons_of_mem t ht'))

/-- Go map assignment grows the cache by at most one entry. -/
theorem cacheInsert_length (c : List (Nat × List Nat)) (k : Nat) (v : List Nat) :
    (cacheInsert c k v).length ≤ c.length + 1 := by
  unfold cacheInsert
  split
  · simp
  · simp

/-- `ParseVolume`'s repair step leaves `SectorBytes` in `[1, 8192]` and
`ChunkSectors` in `[1, 65536]`. -/
theorem normalizeDisk_bounds (d0 : DiskSMART) :
    1 ≤ (normalizeDisk d0).SectorBytes ∧ (normalizeDisk d0).SectorBytes ≤ 8192 ∧
    1 ≤ (normalizeDisk d0).ChunkSectors ∧ (normalizeDisk d0).ChunkSectors ≤ 65536 := by
  unfold normalizeDisk
  dsimp only
  split_ifs <;> simp_all <;> omega

/-- The `uint64` subtraction plus `int64` cast in `parseNTFSTime` computes
the mathematical integer `t / 10 ^ 7 - 11644473600`. -/
theorem toInt64_filetime (t : Nat) (hlt : t < 2 ^ 64) :
    toInt64 ((t / 10000000 + (2 ^ 64 - 11644473600)) % 2 ^ 64) =
      (t : Int) / 10000000 - 11644473600 := by
  have h64 : (2 : Nat) ^ 64 = 18446744073709551616 := by norm_num
  have hdiv : t / 10000000 * 10000000 ≤ t := Nat.div_mul_le_self t 10000000
  have hq : t / 10000000 ≤ 1844674407370 := by omega
  have hcast : ((t / 10000000 : Nat) : Int) = (t : Int) / 10000000 :=
    Int.natCast_div t 10000000
  unfold toInt64
  by_cases hc : 11644473600 ≤ t / 10000000
  · have hmod : (t / 10000000 + (2 ^ 64 - 11644473600)) % 2 ^ 64 =
        t / 10000000 - 11644473600 := by omega
    rw [hmod, if_pos (by omega)]
    rw [Nat.cast_sub hc, hcast]
    norm_num
  · have hmod : (t / 10000000 + (2 ^ 64 - 11644473600)) % 2 ^ 64 =
        t / 10000000 + (2 ^ 64 - 11644473600) := by omega
    rw [hmod, if_neg (by omega)]
    rw [Nat.cast_add, hcast]
    push_cast
    omega

/-- Fuel `file.length - lastOffset` suffices for the `Parse` scanning loop:
every iteration that does not leave the loop strictly increases
`lastOffset`, which stays below `file.length`. -/
theorem parseScan_fuel (file : List Nat) :
    ∀ (fuel : Nat) (sec : Section) (processed : List Nat)
      (lastOffset : Nat) (acc : List Section),
      file.length ≤ lastOffset + fuel →
      (ParseScan file fuel sec processed lastOffset acc).isSome := by
  intro fuel
  induction fuel with
  | zero =>
    intro sec processed lastOffset acc h
    rw [ParseScan]
    split
    · simp
    · split
      · simp
      · split
        · simp
        · next h2 h3 =>
          exfalso
          omega
  | succ fuel ih =>
    intro sec processed lastOffset acc h
    rw [ParseScan]
    split
    · simp
    · split
      · simp
      · split
        · simp
        · next h2 h3 =>
          cases hR : ReadSection file sec.NextOffset with
          | error e => simp
          | ok s =>
            simp only []
            split
            · simp
            · exact ih s (sec.NextOffset :: processed) sec.NextOffset
                (acc ++ [s]) (by omega)

/-- On `loopFile`, `internal/ewf.go`'s `ReadSections` never leaves its
loop: every step reads the self-linked `next` section at offset 13 again,
for any fuel and any accumulated list. -/
theorem internal_scan_loops_aux :
    ∀ (fuel : Nat) (acc : List (Nat × Section)),
      internalReadSections loopFile fuel 13 acc = none := by
  intro fuel
  induction fuel with
  | zero => intro acc; rfl
  | succ fuel ih =>
    intro acc
    have hS : internalReadSection loopFile 13 =
        { SectionTypeDefinition := [110, 101, 120, 116, 0, 0, 0, 0, 0, 0, 0, 0, 0, 0, 0, 0],
          NextOffset := 13, SectionSize := 0,
          Padding := List.replicate 40 0, CheckSum := 0 } := by decide
    rw [internalReadSections]
    simp only [hS]
    rw [if_neg (by decide), if_neg (by decide)]
    exact ih _

/-- Partial-result behaviour of the `ReadSectors` loop, generalised over
the accumulator: after `i` successful reads, a failure at sector `s + i`
returns the accumulated bytes together with the wrapped error. -/
theorem readSectors_partial_aux (inflate : List Nat → Option (List Nat)) :
    ∀ (i : Nat) (e : EWFImage) (s count : Nat) (acc bs : List Nat)
      (eI eE : EWFImage) (err : EWFError),
      ReadSectorSeq inflate e s i = some (bs, eI) →
      i < count →
      ReadSector inflate eI (s + i) = (.error err, eE) →
      ReadSectorsAux inflate e s count acc =
        ((acc ++ bs, some (.readSectorWrap (s + i) err)), eE) := by
  intro i
  induction i with
  | zero =>
    intro e s count acc bs eI eE err hseq hi hfail
    rw [ReadSectorSeq] at hseq
    obtain ⟨k, rfl⟩ : ∃ k, count = k + 1 := ⟨count - 1, by omega⟩
    cases hseq
    rw [Nat.add_zero] at hfail
    rw [ReadSectorsAux, hfail]
    simp
  | succ i ih =>
    intro e s count acc bs eI eE err hseq hi hfail
    rw [ReadSectorSeq] at hseq
    obtain ⟨k, rfl⟩ : ∃ k, count = k + 1 := ⟨count - 1, by omega⟩
    cases hr : ReadSector inflate e s with
    | mk v e' =>
      cases v with
      | error err' => rw [hr] at hseq; exact absurd hseq (by simp)
      | ok d =>
        rw [hr] at hseq
        dsimp only at hseq
        cases hseq' : ReadSectorSeq inflate e' (s + 1) i with
        | none => rw [hseq'] at hseq; exact absurd hseq (by simp)
        | some p =>
          rw [hseq'] at hseq
          simp only [Option.map_some'] at hseq
          cases hseq
          rw [ReadSectorsAux, hr]
          dsimp only
          have hfail' : ReadSector inflate p.2 ((s + 1) + i) = (.error err, eE) := by
            rw [show s + 1 + i = s + (i + 1) by omega]
            exact hfail
          rw [ih e' (s + 1) k (acc ++ d) p.1 p.2 eE err hseq' (by omega) hfail']
          rw [show s + 1 + i = s + (i + 1) by omega]
          rw [List.append_assoc]

/-! ## Claim theorems -/

/-- C1: for a parsed image (sector size positive, a `uint32`, sectors
within the 64-bit extent) and any sector `i` below the sector count whose
read succeeds with bytes `b`, `ReadSectors(i, 1)` returns the same bytes
with no error and `ReadBytes(i * bytes_per_sector, bytes_per_sector)`
returns the same bytes. -/
theorem readSector_agrees_readSectors_readBytes
    (inflate : List Nat → Option (List Nat)) (e : EWFImage)
    (disk : DiskSMART) (i : Nat) (b : List Nat)
    (hdisk : e.DiskInfo = some disk)
    (hbps : 0 < disk.SectorBytes)
    (hbps32 : disk.SectorBytes < 2 ^ 32)
    (hrange : i < disk.SectorsCount)
    (hfit : i * disk.SectorBytes + disk.SectorBytes ≤ 2 ^ 64)
    (hok : (ReadSector inflate e i).1 = .ok b) :
    (ReadSectors inflate e i 1).1 = (b, none) ∧
    (ReadBytes inflate e (i * disk.SectorBytes) disk.SectorBytes).1 = .ok b := by
  have hlen : b.length = disk.SectorBytes :=
    readSector_ok_length inflate e disk i b hdisk hok
  rcases hre : ReadSector inflate e i with ⟨v, e2⟩
  rw [hre] at hok
  dsimp only at hok
  subst hok
  have hsec : ReadSectors inflate e i 1 = ((b, none), e2) := by
    unfold ReadSectors
    rw [show (1 : Nat) = 0 + 1 from rfl, ReadSectorsAux, hre]
    dsimp only
    rw [ReadSectorsAux, List.nil_append]
  refine ⟨by rw [hsec], ?_⟩
  have h64 : (2 : Nat) ^ 64 = 18446744073709551616 := by norm_num
  have h32 : (2 : Nat) ^ 32 = 4294967296 := by norm_num
  have hile : i ≤ i * disk.SectorBytes := Nat.le_mul_of_pos_right i hbps
  have e1 : i * disk.SectorBytes / disk.SectorBytes = i :=
    Nat.mul_div_cancel i hbps
  have e2' : i * disk.SectorBytes % disk.SectorBytes = 0 :=
    Nat.mul_mod_left i disk.SectorBytes
  have e3 : (i * disk.SectorBytes + disk.SectorBytes + (2 ^ 64 - 1)) % 2 ^ 64 =
      i * disk.SectorBytes + disk.SectorBytes - 1 := by omega
  have e4 : (i * disk.SectorBytes + disk.SectorBytes - 1) / disk.SectorBytes = i := by
    have h1 : i * disk.SectorBytes + disk.SectorBytes - 1 =
        disk.SectorBytes - 1 + disk.SectorBytes * i := by
      rw [Nat.mul_comm]; omega
    rw [h1, Nat.add_mul_div_left _ _ hbps, Nat.div_eq_of_lt (by omega),
      Nat.zero_add]
  have e5 : (i + (2 ^ 64 - i) + 1) % 2 ^ 64 = 1 := by omega
  unfold ReadBytes
  rw [hdisk]
  dsimp only
  rw [e1, e3, e4, e5, hsec]
  dsimp only
  rw [e2', Nat.zero_add, Nat.mod_eq_of_lt (by omega), hlen,
    if_neg (lt_irrefl disk.SectorBytes), List.drop_zero, Nat.sub_zero, ← hlen,
    List.take_length]

/-- C1 witness: on the concrete image `imgTwoSectorChunk`, sector 0 reads
`[10, 11, 12, 13]` and all three read paths agree. -/
theorem readSector_agreement_witness :
    (imgTwoSectorChunk.DiskInfo = some (mkDisk 2 4 1) ∧
      (ReadSector noInflate imgTwoSectorChunk 0).1 = .ok [10, 11, 12, 13]) ∧
    ((ReadSectors noInflate imgTwoSectorChunk 0 1).1 = ([10, 11, 12, 13], none) ∧
      (ReadBytes noInflate imgTwoSectorChunk 0 4).1 = .ok [10, 11, 12, 13]) := by
  refine ⟨⟨rfl, by decide⟩, ?_⟩
  have h := readSector_agrees_readSectors_readBytes noInflate imgTwoSectorChunk
    (mkDisk 2 4 1) 0 [10, 11, 12, 13]
    rfl (by decide) (by decide) (by decide) (by decide) (by decide)
  simpa using h

/-- C2 (amended): the top-level scanner of `EWFImage.Parse` terminates on
every finite segment file — fuel `file.length + 1` is never exhausted,
because the loop stops on repeated offsets and on any next-offset that
does not strictly increase or reaches the file size. -/
theorem parse_section_scan_terminates (file : List Nat) :
    (ParseScanRun file).isSome := by
  unfold ParseScanRun
  cases hR : ReadSection file 13 with
  | error e => simp
  | ok s0 => exact parseScan_fuel file (file.length + 1) s0 [13] 13 [s0] (by omega)

/-- C2 counterexample: the claim is false for the other section scanner in
the repository.  `internal/ewf.go`'s `ReadSections` keeps no visited set
and accepts non-increasing next-offsets, so on the 89-byte `loopFile` —
whose single `next` section at offset 13 has `NextOffset = 13` — the loop
never terminates for any fuel. -/
theorem internal_readSections_nonterminating :
    ¬ internalScanTerminates loopFile := by
  rintro ⟨fuel, h⟩
  rw [internal_scan_loops_aux fuel []] at h
  simp at h

/-- C3 (amended): a chunk number with no entry in any `table`/`table2`
section (and no cached copy) fails with the "找不到有效的块" missing-chunk
error, the state unchanged. -/
theorem missing_chunk_gives_chunkNotFound
    (inflate : List Nat → Option (List Nat)) (e : EWFImage) (n : Nat)
    (hcache : lookupCache e.chunkCache n = none)
    (h1 : ∀ t ∈ e.Tables, t.Entries.length ≤ n)
    (h2 : ∀ t ∈ e.Tables2, t.Entries.length ≤ n) :
    FindAndReadChunk inflate e n = (.error (.chunkNotFound n), e) := by
  unfold FindAndReadChunk
  dsimp only
  rw [hcache]
  dsimp only
  rw [findChunkInTables_none inflate e e.file.length n e.Tables h1]
  dsimp only
  rw [findChunkInTables_none inflate e e.file.length n e.Tables2 h2]

/-- C3 witness: on `imgOneChunk`, chunk 1 has no table entry and the
lookup fails with the missing-chunk error. -/
theorem missing_chunk_witness :
    lookupCache imgOneChunk.chunkCache 1 = none ∧
    FindAndReadChunk noInflate imgOneChunk 1 =
      (.error (.chunkNotFound 1), imgOneChunk) :=
  ⟨rfl, missing_chunk_gives_chunkNotFound noInflate imgOneChunk 1 rfl
    (by decide) (by decide)⟩

/-- C3 counterexample: `ReadSector` has no out-of-range check.  On
`imgTwoSectorChunk` the sector count is 1, yet reading sector 1 (at the
count, hence out of range) succeeds with the second half of chunk 0
instead of failing with an out-of-range error. -/
theorem out_of_range_read_succeeds :
    GetSectorCount imgTwoSectorChunk = 1 ∧
    (ReadSector noInflate imgTwoSectorChunk 1).1 = .ok [14, 15, 16, 17] :=
  ⟨rfl, rfl⟩

/-- C4 (amended): `internal/ewf.go`'s `ParseTable` parses each table entry
as a single 32-bit little-endian word and keeps only bits 0-30 (the chunk
offset, always below `2 ^ 31`); bit 31 is masked away rather than kept as
a compressed flag, and no stored size is computed by the parser. -/
theorem table_entry_parsed_formats (file : List Nat) (address ss k : Nat)
    (h104 : 104 ≤ ss) (hk : k < (ss - 100) / 4 - 1) :
    (internalParseTable file address ss)[k]? =
      some (u32LEAt (internalReadAt file (address + 100) (ss - 100)) (4 * k) % 2 ^ 31) ∧
    u32LEAt (internalReadAt file (address + 100) (ss - 100)) (4 * k) % 2 ^ 31 < 2 ^ 31 := by
  constructor
  · unfold internalParseTable
    dsimp only
    rw [List.getElem?_map, List.getElem?_range hk]
    have hmask : ∀ x : Nat, x &&& 0x7FFFFFFF = x % 2 ^ 31 := by
      intro x
      have h31 : (0x7FFFFFFF : Nat) = 2 ^ 31 - 1 := by norm_num
      rw [h31, Nat.and_pow_two_sub_one_eq_mod]
    rw [Option.map_some', hmask]
  · exact Nat.mod_lt _ (by norm_num)

/-- C4 witness: the internal parser on `tblFile` with a 112-byte section
produces entry 0 as the low 31 bits of the first 32-bit word. -/
theorem table_entry_parsed_formats_witness :
    (104 ≤ 112 ∧ 0 < (112 - 100) / 4 - 1) ∧
    ((internalParseTable tblFile 0 112)[0]? =
        some (u32LEAt (internalReadAt tblFile 100 12) 0 % 2 ^ 31) ∧
      u32LEAt (internalReadAt tblFile 100 12) 0 % 2 ^ 31 < 2 ^ 31) :=
  ⟨⟨by decide, by decide⟩,
    table_entry_parsed_formats tblFile 0 112 0 (by decide) (by decide)⟩

set_option maxRecDepth 100000 in
/-- C4 counterexample: the top-level `ParseTable` — the parser used by
`EWFImage.Parse` — reads 16-byte entries with an explicit 32-bit size
field.  On `tblFile` it stores `ChunkSize = 7` read directly from bytes
8-11 of the entry, while parsing the same bytes as the claim describes
(32-bit words, size from successive offsets, `sectors` end 200) would give
stored size `200 - 100 = 100 ≠ 7`. -/
theorem table_entry_16byte_counterexample :
    ParseTable noInflate tblFile 0 40 =
      .ok { EntryNumber := 1,
            Entries := [{ ChunkOffset := 100, ChunkSize := 7, ChunkFlags := 0 }] } ∧
    spec_parseTableEntries (tblFile.take 40) 1 200 =
      [{ compressed := false, offset := 100, storedSize := 100 }] ∧
    (7 : Nat) ≠ 100 :=
  ⟨by decide, by decide, by decide⟩

/-- C5: the claim (with the spec's §9 note) is that an entry with
`ChunkOffset = 0` must be accepted; the source's `isValidTableEntry`
instead rejects it — evaluated here on an otherwise valid entry inside a
1000000-byte file. -/
theorem isValidTableEntry_rejects_zero_offset :
    isValidTableEntry { ChunkOffset := 0, ChunkSize := 512, ChunkFlags := 0 }
      1000000 = false := by
  decide

/-- C6 (amended): an insertion never grows the chunk cache beyond
`MaxCacheSize = 1024` entries. -/
theorem cache_size_bounded (e : EWFImage) (n : Nat) (d : List Nat)
    (h : e.chunkCache.length ≤ MaxCacheSize) :
    (addToCache e n d).chunkCache.length ≤ MaxCacheSize := by
  unfold addToCache
  dsimp only
  split
  · next hfull =>
    have h1 := cacheInsert_length (e.chunkCache.drop 1) n d
    have h2 : (e.chunkCache.drop 1).length = e.chunkCache.length - 1 := by simp
    unfold MaxCacheSize at *
    omega
  · next hfull =>
    have h1 := cacheInsert_length e.chunkCache n d
    unfold MaxCacheSize at *
    omega

/-- C6 witness: inserting into an empty cache respects the bound. -/
theorem cache_size_bounded_witness :
    emptyImage.chunkCache.length ≤ MaxCacheSize ∧
    (addToCache emptyImage 7 [1]).chunkCache.length ≤ MaxCacheSize :=
  ⟨by decide, cache_size_bounded emptyImage 7 [1] (by decide)⟩

set_option maxRecDepth 100000 in
/-- C6 counterexample: eviction is not least-recently-used.  On
`imgCacheFull` the cache holds keys 0..1023 in insertion order; chunk 0 is
then read — a cache hit that leaves the state unchanged, because the code
keeps no recency data — so key 0 is the most recently used and key 1 the
least recently used.  The next insertion nevertheless evicts key 0 (the
entry Go's map iteration yields, here the oldest-inserted) and keeps
key 1, contradicting LRU eviction with insertion-order ties. -/
theorem cache_eviction_not_lru :
    (FindAndReadChunk noInflate imgCacheFull 0).1 = .ok [] ∧
    (FindAndReadChunk noInflate imgCacheFull 0).2 = imgCacheFull ∧
    lookupCache (addToCache imgCacheFull 1024 [5]).chunkCache 0 = none ∧
    lookupCache (addToCache imgCacheFull 1024 [5]).chunkCache 1 = some [] :=
  ⟨by decide, by decide, by decide, by decide⟩

/-- C7 (amended): after a successful `ParseVolume`, `SectorBytes` lies in
`[1, 8192]` and `ChunkSectors` in `[1, 65536]` (the parser only replaces
zero or over-limit values with the defaults 512 and 64; it does not
restrict `SectorBytes` to {512, 1024, 2048, 4096} nor `ChunkSectors` to
powers of two). -/
theorem parseVolume_geometry_clamped (body : List Nat) (ss : Nat)
    (d : DiskSMART) (hok : ParseVolume body ss = .ok d) :
    1 ≤ d.SectorBytes ∧ d.SectorBytes ≤ 8192 ∧
    1 ≤ d.ChunkSectors ∧ d.ChunkSectors ≤ 65536 := by
  unfold ParseVolume at hok
  split at hok
  · exact absurd hok (by simp)
  · split at hok
    · cases hok
      exact normalizeDisk_bounds _
    · split at hok
      · cases hok
        exact normalizeDisk_bounds _
      · exact absurd hok (by simp)

set_option maxRecDepth 100000 in
/-- C7 witness: parsing the concrete 1064-byte `volBody513` succeeds and
satisfies the clamped bounds. -/
theorem parseVolume_geometry_clamped_witness :
    ParseVolume volBody513 1064 =
      .ok (normalizeDisk (decodeDiskSMARTFull volBody513)) ∧
    (1 ≤ (normalizeDisk (decodeDiskSMARTFull volBody513)).SectorBytes ∧
      (normalizeDisk (decodeDiskSMARTFull volBody513)).SectorBytes ≤ 8192 ∧
      1 ≤ (normalizeDisk (decodeDiskSMARTFull volBody513)).ChunkSectors ∧
      (normalizeDisk (decodeDiskSMARTFull volBody513)).ChunkSectors ≤ 65536) :=
  ⟨by decide, parseVolume_geometry_clamped volBody513 1064 _ (by decide)⟩

set_option maxRecDepth 100000 in
/-- C7 counterexample: a volume body with `SectorBytes = 513` (not one of
512/1024/2048/4096) and `ChunkSectors = 3` (odd, hence not a power of two)
parses successfully and keeps both values. -/
theorem parseVolume_accepts_irregular_geometry :
    (ParseVolume volBody513 1064).toOption.map DiskSMART.SectorBytes = some 513 ∧
    (ParseVolume volBody513 1064).toOption.map DiskSMART.ChunkSectors = some 3 ∧
    (513 : Nat) ≠ 512 ∧ (513 : Nat) ≠ 1024 ∧ (513 : Nat) ≠ 2048 ∧
    (513 : Nat) ≠ 4096 :=
  ⟨by decide, by decide, by decide, by decide, by decide, by decide⟩

/-- C8: `parseNTFSTime` maps a FILETIME value `t` (100-ns ticks since
1601-01-01, 8 little-endian bytes) to the Unix timestamp
`t / 10 ^ 7 - 11644473600`, and maps `t = 0` to the null time. -/
theorem parseNTFSTime_unix_conversion (data : List Nat) (t : Nat)
    (hlen : 8 ≤ data.length) (ht : u64LEAt data 0 = t) (hlt : t < 2 ^ 64) :
    parseNTFSTime data =
      if t = 0 then none else some ((t : Int) / 10000000 - 11644473600) := by
  unfold parseNTFSTime
  rw [if_neg (by omega)]
  dsimp only
  rw [ht]
  by_cases h0 : t = 0
  · rw [if_pos h0, if_pos h0]
  · rw [if_neg h0, if_neg h0, toInt64_filetime t hlt]

/-- C8 witness: `t = 2 ^ 56` decodes to Unix second `-4438714197` and
`t = 0` to the null time. -/
theorem parseNTFSTime_unix_conversion_witness :
    parseNTFSTime [0, 0, 0, 0, 0, 0, 0, 1] = some (-4438714197) ∧
    parseNTFSTime [0, 0, 0, 0, 0, 0, 0, 0] = none := by
  constructor
  · have h := parseNTFSTime_unix_conversion [0, 0, 0, 0, 0, 0, 0, 1]
      72057594037927936 (by norm_num) (by decide) (by norm_num)
    rw [h, if_neg (by norm_num)]
    norm_num
  · have h := parseNTFSTime_unix_conversion [0, 0, 0, 0, 0, 0, 0, 0] 0
      (by norm_num) (by decide) (by norm_num)
    rw [h, if_pos rfl]

/-- C9: with `DiskInfo` unparsed (`none`), `GetSectorSize`,
`GetSectorCount` and `GetChunkSize` all return 0, while `ReadSector` and
`ReadBytes` fail with the no-disk-info error. -/
theorem nil_diskinfo_getters_zero_reads_error
    (inflate : List Nat → Option (List Nat)) (e : EWFImage)
    (n off sz : Nat) (h : e.DiskInfo = none) :
    GetSectorSize e = 0 ∧ GetSectorCount e = 0 ∧ GetChunkSize e = 0 ∧
    (ReadSector inflate e n).1 = .error .noDiskInfo ∧
    (ReadBytes inflate e off sz).1 = .error .noDiskInfo := by
  unfold GetSectorSize GetSectorCount GetChunkSize ReadSector ReadBytes
  rw [h]
  simp

/-- C9 witness: the behaviour on the concrete `emptyImage`. -/
theorem nil_diskinfo_witness :
    emptyImage.DiskInfo = none ∧
    (GetSectorSize emptyImage = 0 ∧ GetSectorCount emptyImage = 0 ∧
      GetChunkSize emptyImage = 0 ∧
      (ReadSector noInflate emptyImage 0).1 = .error .noDiskInfo ∧
      (ReadBytes noInflate emptyImage 0 0).1 = .error .noDiskInfo) :=
  ⟨rfl, nil_diskinfo_getters_zero_reads_error noInflate emptyImage 0 0 0 rfl⟩

/-- C10: `ReadSectors(start, count)` is not atomic on error: if the first
`i` sector reads succeed with concatenated bytes `bs` and the read of
sector `start + i` (for `i < count`) fails, the call returns `bs` as a
partial result together with the wrapped error. -/
theorem readSectors_partial_on_error
    (inflate : List Nat → Option (List Nat)) (e : EWFImage)
    (s count i : Nat) (bs : List Nat) (eI eE : EWFImage) (err : EWFError)
    (hseq : ReadSectorSeq inflate e s i = some (bs, eI))
    (hi : i < count)
    (hfail : ReadSector inflate eI (s + i) = (.error err, eE)) :
    ReadSectors inflate e s count =
      ((bs, some (.readSectorWrap (s + i) err)), eE) := by
  unfold ReadSectors
  rw [readSectors_partial_aux inflate i e s count [] bs eI eE err hseq hi hfail]
  rw [List.nil_append]

/-- C10 witness: on `imgOneChunk`, `ReadSectors(0, 2)` reads sector 0,
fails on sector 1, and returns sector 0's four bytes plus the error. -/
theorem readSectors_partial_on_error_witness :
    (ReadSectorSeq noInflate imgOneChunk 0 1 =
        some ([10, 11, 12, 13], imgOneChunkCached) ∧
      (1 : Nat) < 2 ∧
      ReadSector noInflate imgOneChunkCached 1 =
        (.error (.readChunk 1 (.chunkNotFound 1)), imgOneChunkCached)) ∧
    ReadSectors noInflate imgOneChunk 0 2 =
      (([10, 11, 12, 13],
          some (.readSectorWrap 1 (.readChunk 1 (.chunkNotFound 1)))),
        imgOneChunkCached) :=
  ⟨⟨by decide, by decide, by decide⟩,
    readSectors_partial_on_error noInflate imgOneChunk 0 2 1 [10, 11, 12, 13]
      imgOneChunkCached imgOneChunkCached (.readChunk 1 (.chunkNotFound 1))
      (by decide) (by decide) (by decide)⟩

end EwfGo
